import Mathlib

/-!
Verification of the click interactive cluster shell (src/cmd.rs).

This file shallowly embeds the session-state and command logic of
src/cmd.rs and proves the specification claims about it: container
resolution for `logs`, delete confirmation, output-path templating,
log-request construction conflicts, context switching, port-forward
port-spec validation, console- and file-mode log streaming, delete
grace periods, and node-scoped pod listing.
-/

namespace Click

/-! ## Data model

`KObj` mirrors the selected-object handle: a kind tag (`ObjType`, with a
pod carrying its container names), a name, and an optional namespace.
-/

inductive ObjType where
  | pod (containers : List String)
  | node
  | service
  | other
deriving DecidableEq, Repr

structure KObj where
  name : String
  ns : Option String
  typ : ObjType
deriving DecidableEq, Repr

def KObj.is_pod (o : KObj) : Bool :=
  match o.typ with
  | .pod _ => true
  | _ => false

/-- Selection state, mirroring `ObjectSelection`: nothing selected, a
single object, or an ordered range of objects. -/
inductive ObjectSelection where
  | none
  | single (obj : KObj)
  | range (objs : List KObj)
deriving DecidableEq, Repr

/-! ## Context command (cmd.rs lines 1152-1162)

The session state relevant to the `context` command: the current kluster
(identified by its context name), the current selection, and the last
listed objects. -/

structure EnvState where
  kluster : Option String
  selection : ObjectSelection
  lastObjects : List KObj
deriving DecidableEq, Repr

/-- Modelled from the spec: `Env::set_context` lives in the env module,
which is not part of the provided source; it makes the named context the
session's current kluster. -/
def set_context (name : String) (e : EnvState) : EnvState :=
  { e with kluster := some name }

/-- Modelled from the spec: `Env::clear_current` lives in the env module,
which is not part of the provided source; per the spec it clears the
`Selection` and the `LastObjects`. -/
def clear_current (e : EnvState) : EnvState :=
  { e with selection := .none, lastObjects := [] }

/-- The `context NAME` command body (cmd.rs 1152-1162): if the session is
already in the named context it returns without touching any state;
otherwise it calls `set_context` and then `clear_current`. -/
def context_command (name : String) (e : EnvState) : EnvState :=
  if e.kluster = some name then
    e
  else
    clear_current (set_context name e)

/-! ## Delete command grace periods (cmd.rs lines 2017-2049)

`delete_grace_period` is the `gracePeriodSeconds` field the `delete`
command inserts into its DeleteOptions body, as a function of the parsed
arguments: `grace` is the validated `--gracePeriod` value when present,
`force` and `now` the presence of the corresponding flags. `none` means
the field is absent from the body. -/

def delete_grace_period (grace : Option Nat) (force : Bool) (now : Bool) :
    Option Nat :=
  match grace with
  | some g =>
    -- "don't allow zero, make it one. zero is force delete which can
    -- mess things up."
    if g = 0 then some 1 else some g
  | none =>
    if force then some 0
    else if now then some 1
    else none

/-! ## Pods listing URL (cmd.rs lines 1352-1375) -/

/-- The pods list URL before the selection is consulted: namespace-scoped
base plus an optional `?labelSelector=` query (cmd.rs 1352-1363). -/
def pods_base_url (ns : Option String) (label : Option String) : String :=
  (match ns with
   | some n => "/api/v1/namespaces/" ++ n ++ "/pods"
   | none => "/api/v1/pods") ++
  (match label with
   | some l => "?labelSelector=" ++ l
   | none => "")

/-- The full pods list URL (cmd.rs 1352-1375): when the current selection
is a single Node, a `fieldSelector=spec.nodeName=` clause is appended,
with `&` if a label selector was already pushed and `?` otherwise. -/
def pods_url (ns : Option String) (label : Option String)
    (sel : ObjectSelection) : String :=
  let base := pods_base_url ns label
  match sel with
  | .single obj =>
    match obj.typ with
    | .node =>
      base ++ (if label.isSome then "&" else "?") ++
        "fieldSelector=spec.nodeName=" ++ obj.name
    | _ => base
  | _ => base

/-! ## Container resolution for logs (cmd.rs lines 1400-1410, 1442) -/

/-- Outcome of container resolution: a chosen container name together
with whether the multiple-containers warning was printed, or a panic. -/
inductive ContainerChoice where
  | chosen (cont : String) (warned : Bool)
  | panicked
deriving DecidableEq, Repr

/-- The pick_container helper (cmd.rs 1400-1410): prints a warning when
the pod has more than one container and returns `containers[0]`.
Indexing an empty container list panics, and a non-pod object hits the
`unreachable!()` arm, which also panics. -/
def pick_container (obj : KObj) : ContainerChoice :=
  match obj.typ with
  | .pod containers =>
    let warned := decide (containers.length > 1)
    match containers with
    | [] => .panicked
    | c :: _ => .chosen c warned
  | _ => .panicked

/-- Effective container used by do_logs (cmd.rs 1442):
the explicit request container if given, else pick_container. -/
def effective_container (cont_opt : Option String) (obj : KObj) :
    ContainerChoice :=
  match cont_opt with
  | some c => .chosen c false
  | none => pick_container obj

/-- Error kinds named by the spec for log streaming. -/
inductive LogErr where
  | noContainer
deriving DecidableEq, Repr

/-- Spec-side container resolution, written from the spec's words for
comparison with effective_container: the explicit container if given;
the single container if exactly one; the first, with a warning, if more
than one; a NoContainer error if zero. -/
def container_resolution_spec (cont_opt : Option String) (obj : KObj) :
    Except LogErr (String × Bool) :=
  match cont_opt with
  | some c => .ok (c, false)
  | none =>
    match obj.typ with
    | .pod [] => .error .noContainer
    | .pod [c] => .ok (c, false)
    | .pod (c :: _ :: _) => .ok (c, true)
    | _ => .error .noContainer

/-! ## Delete confirmation (cmd.rs lines 1932-1971) -/

/-- Outcome of delete_obj for one object: missing namespace, failed
input read, declined confirmation ("Not deleting"), or proceeding to
issue the delete API call. All four return normally to the range
iteration; none raises an error. -/
inductive DeleteOutcome where
  | noNamespace
  | readFailed
  | declined
  | attempted
deriving DecidableEq, Repr

/-- Rust `str::trim` (for the ASCII whitespace relevant here): strips
leading and trailing whitespace characters. -/
def rust_trim (s : String) : String :=
  String.mk (((s.data.dropWhile Char.isWhitespace).reverse.dropWhile
    Char.isWhitespace).reverse)

/-- ASCII lowercasing of one character, used only to state the spec's
case-insensitive comparison. -/
def ascii_lower (c : Char) : Char :=
  if 'A' ≤ c ∧ c ≤ 'Z' then Char.ofNat (c.toNat + 32) else c

/-- ASCII lowercasing of a string, used only to state the spec's
case-insensitive comparison. -/
def lower_string (s : String) : String :=
  String.mk (s.data.map ascii_lower)

/-- The delete_obj decision structure (cmd.rs 1932-1971): nodes use the
empty namespace, other kinds need a known namespace; then one line of
operator input is read (`none` models a failed read; EOF reads as the
empty line) and the deletion proceeds only when
`conf.trim() == "y" || conf.trim() == "yes"`. -/
def delete_obj (obj : KObj) (input : Option String) : DeleteOutcome :=
  let namespaceOk : Bool :=
    match obj.typ with
    | .node => true
    | _ => obj.ns.isSome
  if namespaceOk then
    match input with
    | Option.none => .readFailed
    | some conf =>
      if rust_trim conf = "y" ∨ rust_trim conf = "yes" then .attempted
      else .declined
  else
    .noNamespace

/-! ## Logs argument conflicts (cmd.rs lines 1578-1651) -/

/-- Argument pairs declared as conflicting in the Logs clap definition
(cmd.rs 1578-1651): follow conflicts with editor and with output, since
with sinceTime, editor with follow and with output, output with editor
and with follow. -/
def logs_conflicts : List (String × String) :=
  [("follow", "editor"), ("follow", "output"),
   ("since", "sinceTime"), ("sinceTime", "since"),
   ("editor", "follow"), ("editor", "output"),
   ("output", "editor"), ("output", "follow")]

/-- Modelled from the clap dependency: a set of present argument names
is accepted at parse time only if no pair of arguments declared as
conflicting is jointly present. -/
def logs_args_accepted (present : List String) : Bool :=
  logs_conflicts.all fun p => !(present.contains p.1 && present.contains p.2)

/-! ## Output-path templating (cmd.rs lines 1455-1481) -/

/-- Opening brace character of a template field. -/
def lbrace : Char := Char.ofNat 123

/-- Closing brace character of a template field. -/
def rbrace : Char := Char.ofNat 125

/-- Modelled from the strfmt crate (an external dependency of do_logs):
the worker behind `strfmt`, substituting template fields. The second
argument is `none` outside a field and `some acc` inside one, with the
reversed key characters read so far; an unknown key or an unclosed
field yields the error outcome (`none`). -/
def strfmt_go (vars : List (String × String)) :
    Option (List Char) → List Char → Option (List Char)
  | Option.none, [] => some []
  | some _, [] => Option.none
  | Option.none, c :: rest =>
    if c = lbrace then strfmt_go vars (some []) rest
    else (strfmt_go vars Option.none rest).map (c :: ·)
  | some acc, c :: rest =>
    if c = rbrace then
      match vars.lookup (String.mk acc.reverse) with
      | Option.none => Option.none
      | some v => (strfmt_go vars Option.none rest).map (v.data ++ ·)
    else strfmt_go vars (some (c :: acc)) rest

/-- Modelled from the strfmt crate: expand each field of the template
from the variable map; an unknown field fails. -/
def strfmt (template : String) (vars : List (String × String)) :
    Option String :=
  (strfmt_go vars Option.none template.data).map String.mk

/-- The format variables do_logs supplies for output-path templating
(cmd.rs 1456-1463): name, namespace — the literal "[none]" when the
object has no namespace — and the current time. -/
def log_fmtvars (obj : KObj) (time : String) : List (String × String) :=
  [("name", obj.name), ("namespace", obj.ns.getD "[none]"), ("time", time)]

/-- Outcome of file-mode output-path handling. -/
inductive FileLogOutcome where
  | wrote (path : String)
  | pathError
deriving DecidableEq, Repr

/-- File-mode output-path handling in do_logs (cmd.rs 1455-1481): on
template-expansion success the logs are streamed to the expanded path;
on failure an error is printed and nothing is streamed to any file. -/
def do_logs_output_path (obj : KObj) (template : String) (time : String) :
    FileLogOutcome :=
  match strfmt template (log_fmtvars obj time) with
  | some path => .wrote path
  | Option.none => .pathError

/-! ## Port-forward port-spec validation (cmd.rs lines 2980-2997) -/

/-- Rust u32 parsing as invoked by the port-spec validator: an optional
leading '+', then at least one ASCII digit, the value within u32 range. -/
def parse_u32 (s : List Char) : Option Nat :=
  let digits := match s with
    | c :: rest => if c = '+' then rest else s
    | [] => []
  if digits = [] then Option.none
  else if digits.all Char.isDigit then
    let v := digits.foldl (fun n c => n * 10 + (c.toNat - 48)) 0
    if v < 2 ^ 32 then some v else Option.none
  else Option.none

/-- Rust `s.split(':')` over the character list: the list of parts
between colons, with empty parts kept. -/
def split_colon : List Char → List (List Char)
  | [] => [[]]
  | c :: rest =>
    match split_colon rest with
    | [] => [[]]
    | p :: ps => if c = ':' then [] :: p :: ps else (c :: p) :: ps

/-- The port-spec validator (cmd.rs 2980-2997): split the spec on ':',
reject more than two parts, and require every non-empty part to parse
as a u32. -/
def valid_port_spec_chars (l : List Char) : Bool :=
  let parts := split_colon l
  if parts.length > 2 then false
  else parts.all fun p => p.isEmpty || (parse_u32 p).isSome

/-- String-level entry point of the port-spec validator. -/
def valid_port_spec (s : String) : Bool :=
  valid_port_spec_chars s.data

/-- Side condition from the spec's words: a side may be empty, and a
non-empty side must parse as an unsigned integer. -/
def SideOk (p : List Char) : Prop :=
  p = [] ∨ (parse_u32 p).isSome = true

/-- Acceptance condition written from the spec's words, for comparison
with the validator: the spec contains at most one ':' separating a
local and a remote side, either side may be empty, and every non-empty
side parses as an unsigned integer. -/
def spec_port_accepts (l : List Char) : Prop :=
  (':' ∉ l ∧ SideOk l) ∨
  (∃ a b, l = a ++ ':' :: b ∧ ':' ∉ a ∧ ':' ∉ b ∧ SideOk a ∧ SideOk b)

/-! ## Console-mode log streaming (cmd.rs lines 1532-1562) -/

/-- One observation of the console consumer's receive call (cmd.rs
1552): a line handed over by the producer task, a one-second receive
timeout, or a disconnected (closed) channel. -/
inductive ChanEvent where
  | line (s : String)
  | timeout
  | disconnected
deriving DecidableEq, Repr

/-- How the console consumer loop ended: the cancellation flag was
observed set, the channel disconnected (normal completion), or the
scripted event trace ran out. -/
inductive ConsoleExit where
  | cancelled
  | disconnected
  | starved
deriving DecidableEq, Repr

/-- The console consumer loop of do_logs (cmd.rs 1551-1562): before
each receive the shared cancellation flag is polled (`cancel i` is its
value at iteration `i`); a received line is written verbatim to the
sink, a timeout re-enters the loop, and a disconnected channel ends it.
Returns the lines written, in order, and how the loop ended. -/
def console_consume (cancel : Nat → Bool) :
    Nat → List ChanEvent → List String × ConsoleExit
  | i, evs =>
    if cancel i then ([], .cancelled)
    else
      match evs with
      | [] => ([], .starved)
      | .line s :: rest =>
        let p := console_consume cancel (i + 1) rest
        (s :: p.1, p.2)
      | .timeout :: rest => console_consume cancel (i + 1) rest
      | .disconnected :: _ => ([], .disconnected)
  termination_by _ evs => evs.length

/-- The channel behaviour of the producer task for a stream of `lines`
that then reaches EOF (cmd.rs 1534-1550): each line is sent in order,
then the sender is dropped, disconnecting the channel. -/
def producer_trace (lines : List String) : List ChanEvent :=
  lines.map ChanEvent.line ++ [ChanEvent.disconnected]

/-! ## File-mode log streaming (cmd.rs lines 1413-1428) -/

/-- How the write_logs_to_file loop ended; on both paths the code
flushes the file and returns Ok — neither is an error. -/
inductive FileExit where
  | eof
  | cancelled
deriving DecidableEq, Repr

/-- The write_logs_to_file loop (cmd.rs 1418-1427): before each read
the cancellation flag is polled (`cancel i` is its value before read
`i`); a zero-byte read ends the loop as EOF; otherwise the chunk just
read — the stream is consumed through a fixed 1024-byte buffer — is
appended to the file. `reads` scripts the successive results of
`reader.read`; returns the bytes written and how the loop ended. -/
def write_logs_to_file (cancel : Nat → Bool) :
    Nat → List (List Nat) → List Nat × FileExit
  | i, reads =>
    if cancel i then ([], .cancelled)
    else
      match reads with
      | [] => ([], .eof)
      | chunk :: rest =>
        if chunk.isEmpty then ([], .eof)
        else
          let p := write_logs_to_file cancel (i + 1) rest
          (chunk ++ p.1, p.2)
  termination_by _ reads => reads.length

end Click

namespace Click

/-! ## Theorems: C5, C9, C10 -/

/-- C5 counterexample: switching to the context the session is already in
is a no-op — the selection survives, so the claim that every invocation
clears the selection is false. -/
theorem context_same_name_keeps_selection :
    (context_command "a"
      ⟨some "a", .single ⟨"p", some "d", .pod ["c"]⟩, []⟩).selection ≠
      ObjectSelection.none := by
  decide

/-- C5 (amended): switching to a context other than the current one
clears the selection and the last objects (and installs the new
context); switching to the context the session is already in leaves the
whole state untouched. -/
theorem context_command_clears_selection (name : String) (e : EnvState)
    (h : e.kluster ≠ some name) :
    (context_command name e).selection = ObjectSelection.none ∧
    (context_command name e).lastObjects = [] ∧
    (context_command name e).kluster = some name := by
  unfold context_command
  rw [if_neg h]
  exact ⟨rfl, rfl, rfl⟩

/-- Witness for C5 at a concrete state. -/
theorem context_command_clears_selection_witness :
    (context_command "b"
      ⟨some "a", .single ⟨"p", some "d", .pod ["c"]⟩, []⟩).selection =
      ObjectSelection.none :=
  (context_command_clears_selection "b"
    ⟨some "a", .single ⟨"p", some "d", .pod ["c"]⟩, []⟩ (by decide)).1

/-- C9: the delete command never sends `gracePeriodSeconds: 0` through
`--grace`: a zero argument is raised to one, `gracePeriodSeconds: 0` is
produced exactly by `--force`, and `--now` sends one. -/
theorem delete_grace_never_zero :
    (∀ force now, delete_grace_period (some 0) force now = some 1) ∧
    (∀ grace force now,
      delete_grace_period grace force now = some 0 ↔
        (grace = Option.none ∧ force = true)) ∧
    (∀ now, delete_grace_period none true now = some 0) ∧
    delete_grace_period none false true = some 1 := by
  refine ⟨fun _ _ => rfl, ?_, fun _ => rfl, rfl⟩
  intro grace force now
  cases grace with
  | none =>
    cases force <;> cases now <;> simp [delete_grace_period]
  | some g =>
    by_cases hg : g = 0 <;> simp [delete_grace_period, hg]

/-- C10: when the current selection is a single Node the pods query gets
a `fieldSelector=spec.nodeName=<node>` clause — joined with `&` after a
label selector, with `?` otherwise — and for every other selection the
URL is exactly the selection-independent base URL. -/
theorem pods_url_node_field_selector :
    (∀ ns l name nodeNs,
      pods_url ns (some l) (.single ⟨name, nodeNs, .node⟩) =
        pods_base_url ns (some l) ++ "&" ++
          "fieldSelector=spec.nodeName=" ++ name) ∧
    (∀ ns name nodeNs,
      pods_url ns none (.single ⟨name, nodeNs, .node⟩) =
        pods_base_url ns none ++ "?" ++
          "fieldSelector=spec.nodeName=" ++ name) ∧
    (∀ ns l sel, (∀ obj, sel = .single obj → obj.typ ≠ .node) →
      pods_url ns l sel = pods_base_url ns l) := by
  refine ⟨fun _ _ _ _ => rfl, fun _ _ _ => rfl, ?_⟩
  intro ns l sel h
  cases sel with
  | none => rfl
  | single obj =>
    have hobj := h obj rfl
    cases htyp : obj.typ with
    | pod containers => simp [pods_url, htyp]
    | node => exact absurd htyp hobj
    | service => simp [pods_url, htyp]
    | other => simp [pods_url, htyp]
  | range objs => rfl

/-- Witness for C10: a non-node selection leaves the pods URL unfiltered. -/
theorem pods_url_node_field_selector_witness :
    pods_url (some "d") none (.single ⟨"p", some "d", .pod ["c"]⟩) =
      pods_base_url (some "d") none :=
  pods_url_node_field_selector.2.2 (some "d") none
    (.single ⟨"p", some "d", .pod ["c"]⟩)
    (fun obj hobj => by cases hobj; decide)

/-! ## Theorems: C1, C2, C4 -/

/-- C1 counterexample: on a pod with zero containers the code's
resolution panics (out-of-bounds index), while the spec-side resolution
demands a NoContainer error — the code does not return an error there. -/
theorem pick_container_zero_containers_panics :
    effective_container none ⟨"p", some "d", .pod []⟩ =
      ContainerChoice.panicked ∧
    container_resolution_spec none ⟨"p", some "d", .pod []⟩ =
      Except.error LogErr.noContainer :=
  ⟨rfl, rfl⟩

/-- C1 (amended): an explicit request container is used as given; a pod
with exactly one container resolves to it without a warning; a pod with
several containers resolves to the first in declared order with the
multiple-containers warning; a pod with zero containers makes the
resolution panic (there is no NoContainer error path). -/
theorem effective_container_resolution (obj : KObj) (c : String)
    (cs : List String) :
    (∀ e, effective_container (some e) obj = .chosen e false) ∧
    (obj.typ = .pod [c] →
      effective_container none obj = .chosen c false) ∧
    (obj.typ = .pod (c :: cs) → cs ≠ [] →
      effective_container none obj = .chosen c true) ∧
    (obj.typ = .pod [] → effective_container none obj = .panicked) := by
  refine ⟨fun e => rfl, ?_, ?_, ?_⟩
  · intro h
    simp [effective_container, pick_container, h]
  · intro h hcs
    cases cs with
    | nil => exact absurd rfl hcs
    | cons c2 cs2 =>
      simp [effective_container, pick_container, h]
  · intro h
    simp [effective_container, pick_container, h]

/-- Witness for C1 at a two-container pod. -/
theorem effective_container_resolution_witness :
    effective_container none ⟨"p", some "d", .pod ["a", "b"]⟩ =
      ContainerChoice.chosen "a" true :=
  (effective_container_resolution ⟨"p", some "d", .pod ["a", "b"]⟩
    "a" ["b"]).2.2.1 rfl (by decide)

/-- C2 counterexample: the confirmation comparison is case-sensitive.
For input "Y" — whose trimmed, lowercased form is "y", so the claim says
the deletion proceeds — the code declines the deletion. -/
theorem delete_confirmation_rejects_uppercase :
    delete_obj ⟨"p", some "d", .pod ["c"]⟩ (some "Y") =
      DeleteOutcome.declined ∧
    lower_string (rust_trim "Y") = "y" := by
  exact ⟨by decide, by decide⟩

/-- C2 (amended): for an object whose namespace is known (or a node),
the deletion proceeds if and only if the trimmed input is exactly the
lowercase "y" or "yes"; any other input, including the empty line that
an EOF read produces, yields the normal declined outcome. -/
theorem delete_confirmation (obj : KObj) (line : String)
    (h : obj.typ = .node ∨ obj.ns.isSome = true) :
    (delete_obj obj (some line) = .attempted ↔
      (rust_trim line = "y" ∨ rust_trim line = "yes")) ∧
    (¬(rust_trim line = "y" ∨ rust_trim line = "yes") →
      delete_obj obj (some line) = .declined) ∧
    delete_obj obj (some "") = .declined := by
  have hok : (match obj.typ with
      | .node => true
      | _ => obj.ns.isSome) = true := by
    rcases h with h | h
    · rw [h]
    · cases obj.typ <;> simp [h]
  have hempty : ¬(rust_trim "" = "y" ∨ rust_trim "" = "yes") := by decide
  refine ⟨?_, ?_, ?_⟩
  · by_cases hy : rust_trim line = "y" ∨ rust_trim line = "yes" <;>
      simp [delete_obj, hok, hy]
  · intro hy
    simp [delete_obj, hok, hy]
  · simp [delete_obj, hok, hempty]

/-- Witness for C2: a "yes" answer on a namespaced pod proceeds. -/
theorem delete_confirmation_witness :
    delete_obj ⟨"p", some "d", .pod ["c"]⟩ (some "yes") =
      DeleteOutcome.attempted :=
  (delete_confirmation ⟨"p", some "d", .pod ["c"]⟩ "yes"
    (Or.inr rfl)).1.mpr (Or.inr (by decide))

/-- C4 counterexample: a parse presenting both follow and output (File
mode) is rejected by the declared conflicts, contradicting the claim
that follow-with-File is accepted at request construction. -/
theorem logs_follow_with_output_rejected :
    logs_args_accepted ["follow", "output"] = false := by
  decide

/-- C4 (amended): at the request-construction boundary, follow is
rejected together with Editor mode and also together with File mode;
each of the three alone (and follow with non-output flags) is accepted. -/
theorem logs_follow_conflicts :
    logs_args_accepted ["follow", "editor"] = false ∧
    logs_args_accepted ["follow", "output"] = false ∧
    logs_args_accepted ["follow"] = true ∧
    logs_args_accepted ["output"] = true ∧
    logs_args_accepted ["editor"] = true ∧
    logs_args_accepted ["follow", "tail", "previous"] = true := by
  decide

/-! ## Theorems: C3 -/

/-- C3 counterexample: for an object with no namespace the template
variable for the namespace is bound to the literal "[none]", not to an
"unknown" token: "{namespace}.log" expands to "[none].log". -/
theorem path_template_missing_namespace_token :
    do_logs_output_path ⟨"web-1", Option.none, .pod ["c"]⟩
      "{namespace}.log" "T" = FileLogOutcome.wrote "[none].log" ∧
    ("[none]" : String) ≠ "unknown" := by
  exact ⟨by decide, by decide⟩

/-- C3 (amended): the output-path template is expanded against exactly
the fields name, namespace and time, where a missing namespace is bound
to the literal "[none]"; "{name}-{namespace}.log" with name "web-1" and
namespace "prod" gives exactly "web-1-prod.log"; a template referencing
any other field, such as "{bogus}", fails the expansion and nothing is
streamed to any file. -/
theorem path_template_expansion (obj : KObj) (time : String) :
    strfmt "{name}" (log_fmtvars obj time) = some obj.name ∧
    strfmt "{namespace}" (log_fmtvars obj time) =
      some (obj.ns.getD "[none]") ∧
    strfmt "{time}" (log_fmtvars obj time) = some time ∧
    do_logs_output_path ⟨"web-1", some "prod", .pod ["c"]⟩
      "{name}-{namespace}.log" "T" =
      FileLogOutcome.wrote "web-1-prod.log" ∧
    do_logs_output_path obj "{bogus}" time = FileLogOutcome.pathError := by
  refine ⟨?_, ?_, ?_, by decide, rfl⟩
  · have h : strfmt "{name}" (log_fmtvars obj time) =
        some (String.mk (obj.name.data ++ [])) := rfl
    rw [h, List.append_nil]
  · have h : strfmt "{namespace}" (log_fmtvars obj time) =
        some (String.mk ((obj.ns.getD "[none]").data ++ [])) := rfl
    rw [h, List.append_nil]
  · have h : strfmt "{time}" (log_fmtvars obj time) =
        some (String.mk (time.data ++ [])) := rfl
    rw [h, List.append_nil]

/-! ## Theorems: C7 -/

/-- Console consumer: a set cancellation flag ends the loop at once. -/
theorem console_consume_flag_set (cancel : Nat → Bool) (i : Nat)
    (evs : List ChanEvent) (h : cancel i = true) :
    console_consume cancel i evs = ([], ConsoleExit.cancelled) := by
  rw [console_consume.eq_def]
  simp [h]

/-- Console consumer: with the flag clear, a received line is written
and the loop continues. -/
theorem console_consume_flag_clear_line (cancel : Nat → Bool) (i : Nat)
    (s : String) (rest : List ChanEvent) (h : cancel i = false) :
    console_consume cancel i (.line s :: rest) =
      (s :: (console_consume cancel (i + 1) rest).1,
        (console_consume cancel (i + 1) rest).2) := by
  simp only [console_consume]
  simp [h]

/-- Console consumer: with the flag clear, a disconnected channel ends
the loop as normal completion. -/
theorem console_consume_flag_clear_disconnected (cancel : Nat → Bool)
    (i : Nat) (rest : List ChanEvent) (h : cancel i = false) :
    console_consume cancel i (.disconnected :: rest) =
      ([], ConsoleExit.disconnected) := by
  simp only [console_consume]
  simp [h]

/-- Console consumer: with the cancellation flag never set, the consumer
writes exactly the produced lines, in order, and exits on disconnect. -/
theorem console_consume_no_cancel (lines : List String) :
    ∀ i, console_consume (fun _ => false) i (producer_trace lines) =
      (lines, ConsoleExit.disconnected) := by
  induction lines with
  | nil =>
    intro i
    exact console_consume_flag_clear_disconnected _ i [] rfl
  | cons s rest ih =>
    intro i
    have hstep := console_consume_flag_clear_line (fun _ => false) i s
      (producer_trace rest) rfl
    have hcons : producer_trace (s :: rest) =
        ChanEvent.line s :: producer_trace rest := rfl
    rw [hcons, hstep, ih (i + 1)]

/-- Console consumer: a flag that becomes set after `k` received lines
stops the loop right there, with exactly the first `k` lines written
and a cancelled (not error) exit. -/
theorem console_consume_cancel_at (lines : List String) :
    ∀ (k i : Nat), k ≤ lines.length →
    console_consume (fun j => decide (i + k ≤ j)) i
        (producer_trace lines) =
      (lines.take k, ConsoleExit.cancelled) := by
  induction lines with
  | nil =>
    intro k i hk
    have hk0 : k = 0 := Nat.le_zero.mp hk
    subst hk0
    exact console_consume_flag_set _ i _ (by simp)
  | cons s rest ih =>
    intro k i hk
    cases k with
    | zero =>
      exact console_consume_flag_set _ i _ (by simp)
    | succ k =>
      have hf : decide (i + (k + 1) ≤ i) = false := by
        rw [decide_eq_false_iff_not]
        omega
      have hcons : producer_trace (s :: rest) =
          ChanEvent.line s :: producer_trace rest := rfl
      rw [hcons, console_consume_flag_clear_line _ i s _ hf]
      have hfun : (fun j => decide (i + (k + 1) ≤ j)) =
          (fun j => decide ((i + 1) + k ≤ j)) := by
        funext j
        have harith : i + (k + 1) = (i + 1) + k := by omega
        rw [harith]
      rw [hfun, ih k (i + 1) (Nat.succ_le_succ_iff.mp hk)]
      simp

/-- C7: with a producer that emits exactly the given lines and then
closes the channel, the console consumer writes exactly those lines in
order and exits through the normal disconnect path; and if the shared
cancellation flag becomes set after line `k` (`k` lines received,
`k < N`), the consumer stops at its very next flag poll — one poll
interval — with exactly the first `k` lines written, exiting as
cancelled, not as an error. -/
theorem console_streaming (lines : List String) (k : Nat)
    (hk : k < lines.length) :
    console_consume (fun _ => false) 0 (producer_trace lines) =
      (lines, ConsoleExit.disconnected) ∧
    console_consume (fun j => decide (k ≤ j)) 0 (producer_trace lines) =
      (lines.take k, ConsoleExit.cancelled) := by
  constructor
  · exact console_consume_no_cancel lines 0
  · have hfun : (fun j => decide (k ≤ j)) =
        (fun j => decide (0 + k ≤ j)) := by
      funext j
      rw [Nat.zero_add]
    rw [hfun]
    exact console_consume_cancel_at lines k 0 (Nat.le_of_lt hk)

/-- Witness for C7 with three lines and the flag set after the second. -/
theorem console_streaming_witness :
    console_consume (fun _ => false) 0
        (producer_trace ["a\n", "b\n", "c\n"]) =
      (["a\n", "b\n", "c\n"], ConsoleExit.disconnected) ∧
    console_consume (fun j => decide (2 ≤ j)) 0
        (producer_trace ["a\n", "b\n", "c\n"]) =
      (["a\n", "b\n"], ConsoleExit.cancelled) :=
  console_streaming ["a\n", "b\n", "c\n"] 2 (by decide)

/-! ## Theorems: C8 -/

/-- File copy loop: a set cancellation flag ends the loop at once. -/
theorem write_logs_flag_set (cancel : Nat → Bool) (i : Nat)
    (reads : List (List Nat)) (h : cancel i = true) :
    write_logs_to_file cancel i reads = ([], FileExit.cancelled) := by
  rw [write_logs_to_file.eq_def]
  simp [h]

/-- File copy loop: with the flag clear, a non-empty chunk is appended
to the file and the loop continues. -/
theorem write_logs_flag_clear_chunk (cancel : Nat → Bool) (i : Nat)
    (chunk : List Nat) (rest : List (List Nat)) (h : cancel i = false)
    (hne : chunk ≠ []) :
    write_logs_to_file cancel i (chunk :: rest) =
      (chunk ++ (write_logs_to_file cancel (i + 1) rest).1,
        (write_logs_to_file cancel (i + 1) rest).2) := by
  simp only [write_logs_to_file]
  simp [h, hne]

/-- File copy loop: with the flag clear, an exhausted stream (the next
read returns zero bytes) ends the loop as EOF, not as an error. -/
theorem write_logs_flag_clear_eof (cancel : Nat → Bool) (i : Nat)
    (h : cancel i = false) :
    write_logs_to_file cancel i [] = ([], FileExit.eof) := by
  simp only [write_logs_to_file]
  simp [h]

/-- File copy loop: never cancelled, the file receives the
concatenation of all chunks and the loop ends at EOF. -/
theorem write_logs_no_cancel (reads : List (List Nat)) :
    ∀ i, (∀ c ∈ reads, c ≠ []) →
    write_logs_to_file (fun _ => false) i reads =
      (reads.flatten, FileExit.eof) := by
  induction reads with
  | nil =>
    intro i _
    exact write_logs_flag_clear_eof _ i rfl
  | cons chunk rest ih =>
    intro i hne
    rw [write_logs_flag_clear_chunk (fun _ => false) i chunk rest rfl
      (hne chunk (by simp)),
      ih (i + 1) (fun c hc => hne c (by simp [hc]))]
    simp

/-- File copy loop: a flag set after `k` chunks stops the loop at that
chunk boundary with exactly the first `k` chunks written. -/
theorem write_logs_cancel_at (reads : List (List Nat)) :
    ∀ (k i : Nat), k ≤ reads.length → (∀ c ∈ reads, c ≠ []) →
    write_logs_to_file (fun j => decide (i + k ≤ j)) i reads =
      ((reads.take k).flatten, FileExit.cancelled) := by
  induction reads with
  | nil =>
    intro k i hk _
    have hk0 : k = 0 := Nat.le_zero.mp hk
    subst hk0
    exact write_logs_flag_set _ i _ (by simp)
  | cons chunk rest ih =>
    intro k i hk hne
    cases k with
    | zero =>
      exact write_logs_flag_set _ i _ (by simp)
    | succ k =>
      have hf : decide (i + (k + 1) ≤ i) = false := by
        rw [decide_eq_false_iff_not]
        omega
      rw [write_logs_flag_clear_chunk _ i chunk rest hf
        (hne chunk (by simp))]
      have hfun : (fun j => decide (i + (k + 1) ≤ j)) =
          (fun j => decide ((i + 1) + k ≤ j)) := by
        funext j
        have harith : i + (k + 1) = (i + 1) + k := by omega
        rw [harith]
      rw [hfun, ih k (i + 1) (Nat.succ_le_succ_iff.mp hk)
        (fun c hc => hne c (by simp [hc]))]
      simp

/-- C8: the file copy of write_logs_to_file proceeds in fixed-size
chunks (reads of at most the 1024-byte buffer); run to completion
without cancellation the file's byte content is exactly the
concatenation of all bytes the stream produced, and the zero-byte read
at stream end terminates the loop as normal EOF completion, not an
error; a flag set after `k` chunks stops at that chunk boundary,
leaving the file containing exactly the bytes of the `k` fully
processed chunks. -/
theorem file_streaming (reads : List (List Nat)) (k : Nat)
    (hwf : ∀ c ∈ reads, c ≠ [] ∧ c.length ≤ 1024)
    (hk : k ≤ reads.length) :
    write_logs_to_file (fun _ => false) 0 reads =
      (reads.flatten, FileExit.eof) ∧
    write_logs_to_file (fun j => decide (k ≤ j)) 0 reads =
      ((reads.take k).flatten, FileExit.cancelled) := by
  constructor
  · exact write_logs_no_cancel reads 0 (fun c hc => (hwf c hc).1)
  · have hfun : (fun j => decide (k ≤ j)) =
        (fun j => decide (0 + k ≤ j)) := by
      funext j
      rw [Nat.zero_add]
    rw [hfun]
    exact write_logs_cancel_at reads k 0 hk (fun c hc => (hwf c hc).1)

/-- Witness for C8 with two chunks and the flag set after the first. -/
theorem file_streaming_witness :
    write_logs_to_file (fun _ => false) 0 [[1, 2], [3]] =
      ([1, 2, 3], FileExit.eof) ∧
    write_logs_to_file (fun j => decide (1 ≤ j)) 0 [[1, 2], [3]] =
      ([1, 2], FileExit.cancelled) :=
  file_streaming [[1, 2], [3]] 1 (by decide) (by decide)

/-! ## Theorems: C6 -/

/-- Splitting on ':' always yields at least one part. -/
theorem split_colon_ne_nil : ∀ l : List Char, split_colon l ≠ [] := by
  intro l
  cases l with
  | nil => simp [split_colon]
  | cons c rest =>
    simp only [split_colon]
    cases h : split_colon rest with
    | nil => simp
    | cons p ps => by_cases hc : c = ':' <;> simp [hc]

/-- A colon-free list is one single part. -/
theorem split_colon_no_colon :
    ∀ l : List Char, ':' ∉ l → split_colon l = [l] := by
  intro l
  induction l with
  | nil => intro _; rfl
  | cons c rest ih =>
    intro h
    have hc : ¬(c = ':') := fun hc => h (by simp [hc])
    have hr : ':' ∉ rest := fun hm => h (by simp [hm])
    simp only [split_colon, ih hr]
    simp [hc]

/-- Splitting at the first colon peels off the colon-free prefix. -/
theorem split_colon_append :
    ∀ (a b : List Char), ':' ∉ a →
    split_colon (a ++ ':' :: b) = a :: split_colon b := by
  intro a
  induction a with
  | nil =>
    intro b _
    simp only [List.nil_append, split_colon]
    cases h : split_colon b with
    | nil => exact absurd h (split_colon_ne_nil b)
    | cons p ps => simp
  | cons c a2 ih =>
    intro b h
    have hc : ¬(c = ':') := fun hc => h (by simp [hc])
    have ha : ':' ∉ a2 := fun hm => h (by simp [hm])
    simp only [List.cons_append, split_colon, List.append_eq]
    rw [ih b ha]
    simp [hc]

/-- A list containing a colon splits as colon-free prefix, colon, rest. -/
theorem mem_split_first :
    ∀ l : List Char, ':' ∈ l → ∃ a b, l = a ++ ':' :: b ∧ ':' ∉ a := by
  intro l
  induction l with
  | nil => intro h; exact absurd h (List.not_mem_nil _)
  | cons c rest ih =>
    intro h
    by_cases hc : c = ':'
    · exact ⟨[], rest, by simp [hc], by simp⟩
    · have hr : ':' ∈ rest := by
        rcases List.mem_cons.mp h with h1 | h2
        · exact absurd h1.symm hc
        · exact h2
      obtain ⟨a, b, hab, hna⟩ := ih hr
      refine ⟨c :: a, b, by rw [hab]; rfl, ?_⟩
      intro hm
      rcases List.mem_cons.mp hm with h1 | h1
      · exact hc h1.symm
      · exact hna h1

/-- A list containing a colon splits into at least two parts. -/
theorem split_colon_two_of_colon :
    ∀ b : List Char, ':' ∈ b → 2 ≤ (split_colon b).length := by
  intro b hb
  obtain ⟨x, y, hxy, hnx⟩ := mem_split_first b hb
  rw [hxy, split_colon_append x y hnx]
  cases h : split_colon y with
  | nil => exact absurd h (split_colon_ne_nil y)
  | cons p ps => simp

/-- The validator's per-part test agrees with the spec's side rule. -/
theorem side_ok_iff (p : List Char) :
    (p.isEmpty || (parse_u32 p).isSome) = true ↔ SideOk p := by
  simp [SideOk, Bool.or_eq_true, List.isEmpty_iff]

/-- The port-spec validator agrees with the spec's acceptance condition
on every character list. -/
theorem valid_port_spec_chars_iff (l : List Char) :
    valid_port_spec_chars l = true ↔ spec_port_accepts l := by
  constructor
  · intro h
    simp only [valid_port_spec_chars] at h
    by_cases hc : ':' ∈ l
    · obtain ⟨a, b, hab, hna⟩ := mem_split_first l hc
      subst hab
      rw [split_colon_append a b hna] at h
      by_cases hcb : ':' ∈ b
      · have hlen := split_colon_two_of_colon b hcb
        rw [if_pos (by simp; omega)] at h
        exact absurd h (by simp)
      · rw [split_colon_no_colon b hcb] at h
        rw [if_neg (by simp)] at h
        simp only [List.all_cons, List.all_nil, Bool.and_true,
          Bool.and_eq_true] at h
        exact Or.inr ⟨a, b, rfl, hna, hcb,
          (side_ok_iff a).mp h.1, (side_ok_iff b).mp h.2⟩
    · rw [split_colon_no_colon l hc] at h
      rw [if_neg (by simp)] at h
      simp only [List.all_cons, List.all_nil, Bool.and_true] at h
      exact Or.inl ⟨hc, (side_ok_iff l).mp h⟩
  · intro h
    rcases h with ⟨hnc, hside⟩ | ⟨a, b, hab, hna, hnb, hsa, hsb⟩
    · simp only [valid_port_spec_chars]
      rw [split_colon_no_colon l hnc]
      rw [if_neg (by simp)]
      simp [(side_ok_iff l).mpr hside]
    · subst hab
      simp only [valid_port_spec_chars]
      rw [split_colon_append a b hna, split_colon_no_colon b hnb]
      rw [if_neg (by simp)]
      simp [(side_ok_iff a).mpr hsa, (side_ok_iff b).mpr hsb]

/-- C6: a port spec string is accepted by the validator exactly when it
contains at most one ':' separating a (possibly empty) local side and a
(possibly empty) remote side with every non-empty side parsing as an
unsigned integer; in particular "8080", "8080:9090", ":3456" and
"0:3456" are accepted while "1:2:3" and "abc:80" are rejected. -/
theorem port_spec_validation :
    (∀ s : String, valid_port_spec s = true ↔ spec_port_accepts s.data) ∧
    valid_port_spec "8080" = true ∧
    valid_port_spec "8080:9090" = true ∧
    valid_port_spec ":3456" = true ∧
    valid_port_spec "0:3456" = true ∧
    valid_port_spec "1:2:3" = false ∧
    valid_port_spec "abc:80" = false := by
  refine ⟨fun s => valid_port_spec_chars_iff s.data,
    by decide, by decide, by decide, by decide, by decide, by decide⟩

end Click
